import Mathlib

/-!
Shallow embedding of the HID Report Descriptor codec of
`usb_protocol/types/descriptors/hid.py` and the HID descriptor builder of
`usb_protocol/emitters/descriptors/hid.py`.

The source builds its codec from the `construct` combinator library; the
embedding reflects the documented behaviour of the combinators actually used:

* `BitStruct` packs its fields most-significant-bit first, in declaration
  order, one bit per `Flag` field;
* `Enum(BitsInteger(6), HIDPrefix)` parses a mapped 6-bit value to the enum
  member; an unmapped value parses to a bare integer, on which the
  `HasItemFlags` membership test of the source then fails (it reads the
  `intvalue` attribute that only mapped values carry), so the item fails to
  decode;
* `Switch(this.bHeader.bSize, ...)` selects the payload sub-codec from the
  2-bit size class: `Byte[0]`, `ItemFlags1` (one byte), `ItemFlags2` (two
  bytes), `Byte[4]`;
* `GreedyRange` repeats the item codec until it fails, returns the items
  decoded so far and never raises;
* building a `Struct` from a mapping requires a value for every field
  (a missing field is an error), and building inverts parsing.

Bytes are modelled as natural numbers; a stream is a `List Nat` whose
members are below 256. Decode failure (a raised exception in the source) is
`Option.none`.
-/

namespace USBHid

/-- The closed 6-bit item tag set of the source (`class HIDPrefix(IntEnum)`).
The Python name of the type is `HIDPrefix`; the member names are kept. -/
inductive HIDTag
  | INPUT | OUTPUT | FEATURE | COLLECTION | END_COLLECTION
  | USAGE_PAGE | LOGICAL_MIN | LOGICAL_MAX | PHYSICAL_MIN | PHYSICAL_MAX
  | UNIT_EXPONENT | UNIT | REPORT_SIZE | REPORT_ID | REPORT_COUNT | PUSH | POP
  | USAGE | USAGE_MIN | USAGE_MAX | DESIGNATOR_IDX | DESIGNATOR_MIN
  | DESIGNATOR_MAX | STRING_IDX | STRING_MIN | STRING_MAX | DELIMITER
deriving DecidableEq, Repr

/-- The 6-bit value of each member, as written in the source. -/
def HIDTag.val : HIDTag → Nat
  | .INPUT => 32
  | .OUTPUT => 36
  | .FEATURE => 44
  | .COLLECTION => 40
  | .END_COLLECTION => 48
  | .USAGE_PAGE => 1
  | .LOGICAL_MIN => 5
  | .LOGICAL_MAX => 9
  | .PHYSICAL_MIN => 13
  | .PHYSICAL_MAX => 17
  | .UNIT_EXPONENT => 21
  | .UNIT => 25
  | .REPORT_SIZE => 29
  | .REPORT_ID => 33
  | .REPORT_COUNT => 37
  | .PUSH => 41
  | .POP => 45
  | .USAGE => 2
  | .USAGE_MIN => 6
  | .USAGE_MAX => 10
  | .DESIGNATOR_IDX => 14
  | .DESIGNATOR_MIN => 18
  | .DESIGNATOR_MAX => 22
  | .STRING_IDX => 30
  | .STRING_MIN => 34
  | .STRING_MAX => 38
  | .DELIMITER => 42

/-- Looking a 6-bit value up in the closed tag set (the mapping of
`construct.Enum(construct.BitsInteger(6), HIDPrefix)`): `none` for a value
with no member. -/
def HIDTag.fromNat? : Nat → Option HIDTag
  | 32 => some .INPUT
  | 36 => some .OUTPUT
  | 44 => some .FEATURE
  | 40 => some .COLLECTION
  | 48 => some .END_COLLECTION
  | 1 => some .USAGE_PAGE
  | 5 => some .LOGICAL_MIN
  | 9 => some .LOGICAL_MAX
  | 13 => some .PHYSICAL_MIN
  | 17 => some .PHYSICAL_MAX
  | 21 => some .UNIT_EXPONENT
  | 25 => some .UNIT
  | 29 => some .REPORT_SIZE
  | 33 => some .REPORT_ID
  | 37 => some .REPORT_COUNT
  | 41 => some .PUSH
  | 45 => some .POP
  | 2 => some .USAGE
  | 6 => some .USAGE_MIN
  | 10 => some .USAGE_MAX
  | 14 => some .DESIGNATOR_IDX
  | 18 => some .DESIGNATOR_MIN
  | 22 => some .DESIGNATOR_MAX
  | 30 => some .STRING_IDX
  | 34 => some .STRING_MIN
  | 38 => some .STRING_MAX
  | 42 => some .DELIMITER
  | _ => none

/-- `HasItemFlags` of the source: the tags whose payload is a flag record. -/
def hasItemFlags (p : HIDTag) : Bool :=
  p = .INPUT || p = .OUTPUT || p = .FEATURE

/-- `_hid_item_length = [0, 1, 2, 4]` of the source. -/
def hidItemLength : List Nat := [0, 1, 2, 4]

/-- Payload byte count of a 2-bit size class (`_hid_item_length[bSize]`). -/
def sizeLen (s : Nat) : Nat := hidItemLength.getD s 0

/-- The one-byte flag record `ItemFlags1` of the source: a `BitStruct` whose
fields are listed here in source order, so `volatile` is the
most-significant bit of the byte and `data_constant` the least-significant
one. -/
structure ItemFlags1 where
  volatile : Bool
  null : Bool
  nPreferred : Bool
  nLinear : Bool
  wrap : Bool
  absolute_relative : Bool
  array_variable : Bool
  data_constant : Bool
deriving DecidableEq, Repr

/-- The two-byte extended flag record `ItemFlags2` of the source: a 16-bit
`BitStruct`, fields in source order, so `reserved6` is bit 15 of the
big-endian 16-bit field and `data_constant` bit 0. -/
structure ItemFlags2 where
  reserved6 : Bool
  reserved5 : Bool
  reserved4 : Bool
  reserved3 : Bool
  reserved2 : Bool
  reserved1 : Bool
  reserved0 : Bool
  bitfield_bufferedbytes : Bool
  volatile : Bool
  null : Bool
  nPreferred : Bool
  nLinear : Bool
  wrap : Bool
  absolute_relative : Bool
  array_variable : Bool
  data_constant : Bool
deriving DecidableEq, Repr

/-- Parsing one byte with `ItemFlags1`: `BitStruct` assigns the byte's bits
most-significant first to the fields in declaration order. -/
def itemFlags1OfByte (b : Nat) : ItemFlags1 :=
  ⟨b.testBit 7, b.testBit 6, b.testBit 5, b.testBit 4,
   b.testBit 3, b.testBit 2, b.testBit 1, b.testBit 0⟩

/-- Parsing two bytes with `ItemFlags2`: the first byte yields the
`reserved6 … bitfield_bufferedbytes` fields, the second the eight flags. -/
def itemFlags2OfBytes (b1 b2 : Nat) : ItemFlags2 :=
  ⟨b1.testBit 7, b1.testBit 6, b1.testBit 5, b1.testBit 4,
   b1.testBit 3, b1.testBit 2, b1.testBit 1, b1.testBit 0,
   b2.testBit 7, b2.testBit 6, b2.testBit 5, b2.testBit 4,
   b2.testBit 3, b2.testBit 2, b2.testBit 1, b2.testBit 0⟩

/-- A list of bits, most significant first, recombined into a number (how
`BitStruct` packs the fields of a record back into bytes on build). -/
def bitsToNat : List Bool → Nat
  | [] => 0
  | b :: rest => (if b then 1 else 0) * 2 ^ rest.length + bitsToNat rest

/-- A bit stream chunked into bytes, most-significant bit first. The
`BitStruct`s of the source hold 8 or 16 bits, so the stream is always a
whole number of bytes; the final catch-all arm is never reached there. -/
def bitsToBytes : List Bool → List Nat
  | b0 :: b1 :: b2 :: b3 :: b4 :: b5 :: b6 :: b7 :: rest =>
      bitsToNat [b0, b1, b2, b3, b4, b5, b6, b7] :: bitsToBytes rest
  | [] => []
  | l => [bitsToNat l]

/-- Building `ItemFlags1` from a record: one byte, fields in source order. -/
def ItemFlags1.toByte (f : ItemFlags1) : Nat :=
  bitsToNat [f.volatile, f.null, f.nPreferred, f.nLinear,
             f.wrap, f.absolute_relative, f.array_variable, f.data_constant]

/-- Building `ItemFlags2` from a record: two bytes, fields in source order. -/
def ItemFlags2.toBytes (f : ItemFlags2) : List Nat :=
  [bitsToNat [f.reserved6, f.reserved5, f.reserved4, f.reserved3,
              f.reserved2, f.reserved1, f.reserved0, f.bitfield_bufferedbytes],
   bitsToNat [f.volatile, f.null, f.nPreferred, f.nLinear,
              f.wrap, f.absolute_relative, f.array_variable, f.data_constant]]

/-- The decoded payload of one item: the discriminated union produced by
`IfThenElse(HasItemFlags, ItemFlags, Byte[...])` with
`ItemFlags = Switch(this.bHeader.bSize, {0: Byte[0], 1: ItemFlags1, 2: ItemFlags2, 3: Byte[4]})`. -/
inductive ItemData
  | flags1 (f : ItemFlags1)
  | flags2 (f : ItemFlags2)
  | raw (bs : List Nat)
deriving DecidableEq, Repr

/-- One decoded report descriptor item (`ReportDescriptorItem`): the header's
6-bit tag (source field name `prefix`, a Lean keyword), the 2-bit size
class `bSize`, and the payload. -/
structure RDItem where
  tag : HIDTag
  bSize : Nat
  data : ItemData
deriving DecidableEq, Repr

/-- Payload interpretation of the source's `data` field: a flag record for a
flagged tag at size class 1 or 2 (the `ItemFlags1` / `ItemFlags2` arms of
the `Switch`), raw bytes otherwise (`Byte[0]`, `Byte[4]`, or
`Byte[_hid_item_length[bSize]]` for unflagged tags). `payload` always has
exactly `sizeLen s` members when called from the decoder, so the wildcard
arm is only reached at size classes 0 and 3. -/
def decodeData (p : HIDTag) (s : Nat) (payload : List Nat) : ItemData :=
  if hasItemFlags p then
    match s, payload with
    | 1, [b] => .flags1 (itemFlags1OfByte b)
    | 2, [b1, b2] => .flags2 (itemFlags2OfBytes b1 b2)
    | _, _ => .raw payload
  else .raw payload

/-- Decoding the one-byte item header (`bHeader`): top six bits are the tag
looked up in the closed set, bottom two bits the size class. -/
def decodeHeader (b : Nat) : Option HIDTag × Nat :=
  (HIDTag.fromNat? (b / 4 % 64), b % 4)

/-- Encoding the one-byte item header: tag in the top six bits, size class
in the bottom two. -/
def encodeHeader (p : HIDTag) (s : Nat) : Nat := p.val * 4 + s

/-- Decoding one `ReportDescriptorItem` from the front of a stream: `none`
models a raised exception (end of stream, an unmapped 6-bit tag value, or a
payload shorter than the size class requires). -/
def decodeRDItem : List Nat → Option (RDItem × List Nat)
  | [] => none
  | h :: rest =>
    match decodeHeader h with
    | (none, _) => none
    | (some p, s) =>
      if sizeLen s ≤ rest.length then
        some (⟨p, s, decodeData p s (rest.take (sizeLen s))⟩, rest.drop (sizeLen s))
      else none

/-- The loop of `GreedyRange(ReportDescriptorItem)`: decode items until one
fails, return the items decoded so far. Each decoded item consumes at least
its header byte, so `l.length` rounds of fuel always suffice (see
`decodeRDAux_congr`). -/
def decodeRDAux : Nat → List Nat → List RDItem
  | 0, _ => []
  | fuel + 1, l =>
    match decodeRDItem l with
    | none => []
    | some (it, r) => it :: decodeRDAux fuel r

/-- `ReportDescriptor.parse`: the item sequence `GreedyRange` yields on a
byte buffer. It never fails; input past the last decodable item is left
unconsumed and dropped. -/
def decodeReportDescriptor (l : List Nat) : List RDItem :=
  decodeRDAux l.length l

/-- Building one item (`ReportDescriptorItem.build`): the header byte
followed by the payload bytes. -/
def encodeItemData : ItemData → List Nat
  | .flags1 f => [f.toByte]
  | .flags2 f => f.toBytes
  | .raw bs => bs

/-- Encoding one `ReportDescriptorItem` back to bytes. -/
def encodeRDItem (it : RDItem) : List Nat :=
  encodeHeader it.tag it.bSize :: encodeItemData it.data

/-- `ReportDescriptor.build`: items encoded and concatenated in order. -/
def encodeReportDescriptor (items : List RDItem) : List Nat :=
  (items.map encodeRDItem).flatten

/-- A validly-encoded report descriptor buffer: a concatenation of items,
each a header byte carrying a mapped tag and an in-range size class,
followed by exactly the payload bytes the size class requires, every
payload byte below 256. -/
inductive ValidRD : List Nat → Prop
  | nil : ValidRD []
  | cons (p : HIDTag) (s : Nat) (payload rest : List Nat) :
      s < 4 → payload.length = sizeLen s → (∀ b ∈ payload, b < 256) →
      ValidRD rest → ValidRD ((p.val * 4 + s) :: (payload ++ rest))

/-- The one-byte flag layout exactly as the spec's words state it (claim C6):
the eight flags ordered from most-significant to least-significant bit as
`data_constant, array_variable, absolute_relative, wrap, nLinear,
nPreferred, null, volatile`. Stated only to be compared with
`itemFlags1OfByte`, the layout the source defines. -/
def specClaimFlags1OfByte (b : Nat) : ItemFlags1 :=
  ⟨b.testBit 0, b.testBit 1, b.testBit 2, b.testBit 3,
   b.testBit 4, b.testBit 5, b.testBit 6, b.testBit 7⟩

/-! ## The HID descriptor builder (`usb_protocol/emitters/descriptors/hid.py`) -/

/-- One positional argument of `add_report_item`'s `*report_data`: in the
source either a plain integer (one payload byte) or a bytes-like object
(such as a built flag record). -/
inductive RArg
  | intArg (n : Nat)
  | blob (bs : List Nat)
deriving DecidableEq, Repr

/-- Python's `list.index`: position of the first occurrence, error (`none`)
when the value does not occur. -/
def listIndex? : List Nat → Nat → Option Nat
  | [], _ => none
  | a :: l, x => if a = x then some 0 else (listIndex? l x).map (· + 1)

/-- The mutable state an emitter built by
`emitter_for_format(ReportDescriptorItem)` holds after `add_report_item`
assigned its fields: the header tag (source field name `prefix`), the
header size class, and the tuple of payload arguments. -/
structure ReportItemEmitter where
  tag : HIDTag
  bSize : Nat
  data : List RArg
deriving DecidableEq, Repr

/-- `HIDDescriptor.add_report_item`: the size class is
`_hid_item_length.index(len(report_data))` — looked up from the NUMBER of
positional arguments, not from their total byte length. `none` models the
`ValueError` that `list.index` raises when the argument count is not in
`{0, 1, 2, 4}`. -/
def add_report_item (p : HIDTag) (args : List RArg) : Option ReportItemEmitter :=
  (listIndex? hidItemLength args.length).map fun sz => ⟨p, sz, args⟩

/-- The flag field names occurring in the two `BitStruct`s and in the
mapping `add_inpout_item` builds (kept as symbols rather than strings). -/
inductive FieldName
  | data_constant | array_variable | absolute_relative | wrap
  | nLinear | nPreferred | null | volatile
  | bitfield_bufferedbytes
  | reserved0 | reserved1 | reserved2 | reserved3
  | reserved4 | reserved5 | reserved6
deriving DecidableEq, Repr

/-- `ItemFlags1`'s field names, in declaration order. -/
def itemFlags1Names : List FieldName :=
  [.volatile, .null, .nPreferred, .nLinear,
   .wrap, .absolute_relative, .array_variable, .data_constant]

/-- `ItemFlags2`'s field names, in declaration order. -/
def itemFlags2Names : List FieldName :=
  [.reserved6, .reserved5, .reserved4, .reserved3,
   .reserved2, .reserved1, .reserved0, .bitfield_bufferedbytes] ++
  itemFlags1Names

/-- Building a `BitStruct` from a mapping (`itmf.build({...})` in
`add_inpout_item`): every field of the record must be present in the
mapping (a missing field is a build error in `construct`, modelled as
`none`); the field bits are then packed most-significant first. -/
def structBuildBytes (fieldNames : List FieldName) (dict : List (FieldName × Bool)) :
    Option (List Nat) :=
  (fieldNames.mapM fun k => dict.lookup k).map bitsToBytes

/-- The keyword parameters of `HIDDescriptor.add_inpout_item` with the
default values of the source (note `linear = False` and
`preferred = True`). -/
structure InpoutArgs where
  data_constant : Bool := false
  array_variable : Bool := true
  absolute_relative : Bool := false
  wrap : Bool := false
  linear : Bool := false
  preferred : Bool := true
  null : Bool := false
  volatile : Bool := false
  bitfield_bufferedbytes : Bool := false
deriving DecidableEq, Repr

/-- The mapping `add_inpout_item` passes to `itmf.build`, key by key in
source order: `nLinear` and `nPreferred` carry the negated `linear` /
`preferred` parameters; the reserved and `bitfield_bufferedbytes` fields
are not in it. -/
def inpoutFlagsDict (a : InpoutArgs) : List (FieldName × Bool) :=
  [(.data_constant, a.data_constant),
   (.array_variable, a.array_variable),
   (.absolute_relative, a.absolute_relative),
   (.wrap, a.wrap),
   (.nLinear, !a.linear),
   (.nPreferred, !a.preferred),
   (.null, a.null),
   (.volatile, a.volatile)]

/-- `HIDDescriptor.add_inpout_item`: select `ItemFlags2` when
`bitfield_bufferedbytes` else `ItemFlags1`, build the flag bytes from the
eight-key mapping, and append one item via `add_report_item` with the built
bytes as the single positional argument. -/
def add_inpout_item (item : HIDTag) (a : InpoutArgs) : Option ReportItemEmitter :=
  match structBuildBytes
      (if a.bitfield_bufferedbytes then itemFlags2Names else itemFlags1Names)
      (inpoutFlagsDict a) with
  | none => none
  | some item_flags => add_report_item item [RArg.blob item_flags]

/-- `HIDDescriptor.add_input_item`. -/
def add_input_item (a : InpoutArgs) : Option ReportItemEmitter :=
  add_inpout_item .INPUT a

/-- `HIDDescriptor.add_output_item`. -/
def add_output_item (a : InpoutArgs) : Option ReportItemEmitter :=
  add_inpout_item .OUTPUT a

/-- One pending report contribution of the builder's `_reports` list:
pre-encoded bytes appended by `add_report_raw`, or a structured item whose
`emit()` produces its encoding. -/
inductive Report
  | raw (bs : List Nat)
  | item (it : RDItem)
deriving DecidableEq, Repr

/-- The bytes one contribution adds in `_pre_emit`'s loop: raw bytes pass
through, an item emitter's `emit()` builds the item. -/
def Report.emit : Report → List Nat
  | .raw bs => bs
  | .item it => encodeRDItem it

/-- Modelled from the spec: the external descriptor-table collaborator
(`DeviceDescriptorCollection` of the repository's emitter framework, not
under `src/`) keeps an ordered table of registered descriptors, each a byte
blob with a descriptor type. -/
structure DescriptorTable where
  entries : List (List Nat × Nat)
deriving DecidableEq, Repr

/-- Modelled from the spec: `add_descriptor(bytes, descriptor_type)` of the
collaborator registers one entry. -/
def addDescriptor (c : DescriptorTable) (bs : List Nat) (ty : Nat) : DescriptorTable :=
  ⟨c.entries ++ [(bs, ty)]⟩

/-- The fields of the fixed nine-byte HID Descriptor header
(`HIDDescriptor` of the types module); `bcdHID_centi` holds the
binary-coded-decimal protocol version in hundredths (default 1.11). -/
structure HIDDescriptorHeader where
  bLength : Nat
  bDescriptorType : Nat
  bcdHID_centi : Nat
  bCountryCode : Nat
  bNumDescriptors : Nat
  bRepDescriptorType : Nat
  wDescriptorLength : Nat
deriving DecidableEq, Repr

/-- `HIDDescriptor._pre_emit`: emit every pending contribution, concatenate,
set `wDescriptorLength` to the concatenation's byte length and register the
concatenation with the collaborator under descriptor type `0x22`. -/
def preEmit (reports : List Report) (c : DescriptorTable) : Nat × DescriptorTable :=
  let report_descriptor := (reports.map Report.emit).flatten
  (report_descriptor.length, addDescriptor c report_descriptor 34)

/-- Modelled from the spec: `ComplexDescriptorEmitter.emit` (repository
framework code not under `src/`) runs `_pre_emit` and then serializes the
descriptor format with the accumulated fields; for the HID descriptor that
is the fixed header with its constant and default fields and the computed
`wDescriptorLength`. -/
def hidDescriptorEmit (reports : List Report) (c : DescriptorTable) :
    HIDDescriptorHeader × DescriptorTable :=
  let p := preEmit reports c
  (⟨9, 33, 111, 0, 1, 34, p.1⟩, p.2)

/-! ## Helper lemmas -/

theorem HIDTag.val_lt (p : HIDTag) : p.val < 64 := by
  cases p <;> decide

theorem HIDTag.fromNat?_val (p : HIDTag) : HIDTag.fromNat? p.val = some p := by
  cases p <;> rfl

set_option maxRecDepth 4096 in
theorem bitsToNat_testBits :
    ∀ b < 256,
      bitsToNat [b.testBit 7, b.testBit 6, b.testBit 5, b.testBit 4,
                 b.testBit 3, b.testBit 2, b.testBit 1, b.testBit 0] = b := by
  decide

theorem itemFlags1_toByte_ofByte (b : Nat) (hb : b < 256) :
    (itemFlags1OfByte b).toByte = b :=
  bitsToNat_testBits b hb

theorem itemFlags2_toBytes_ofBytes (b1 b2 : Nat) (h1 : b1 < 256) (h2 : b2 < 256) :
    (itemFlags2OfBytes b1 b2).toBytes = [b1, b2] := by
  simp only [itemFlags2OfBytes, ItemFlags2.toBytes]
  rw [bitsToNat_testBits b1 h1, bitsToNat_testBits b2 h2]

theorem take_length_append {α : Type} (l r : List α) : (l ++ r).take l.length = l := by
  induction l with
  | nil => rfl
  | cons a t ih => simp [ih]

theorem drop_length_append {α : Type} (l r : List α) : (l ++ r).drop l.length = r := by
  induction l with
  | nil => rfl
  | cons a t ih => simp [ih]

theorem decodeRDItem_cons (h : Nat) (rest : List Nat) :
    decodeRDItem (h :: rest) =
      match decodeHeader h with
      | (none, _) => none
      | (some p, s) =>
        if sizeLen s ≤ rest.length then
          some (⟨p, s, decodeData p s (rest.take (sizeLen s))⟩, rest.drop (sizeLen s))
        else none := rfl

theorem decodeRDItem_encoded (p : HIDTag) (s : Nat) (payload rest : List Nat)
    (hs : s < 4) (hlen : payload.length = sizeLen s) :
    decodeRDItem ((p.val * 4 + s) :: (payload ++ rest)) =
      some (⟨p, s, decodeData p s payload⟩, rest) := by
  have hv := HIDTag.val_lt p
  have h1 : (p.val * 4 + s) / 4 % 64 = p.val := by omega
  have h2 : (p.val * 4 + s) % 4 = s := by omega
  have h3 : sizeLen s ≤ (payload ++ rest).length := by
    rw [List.length_append, ← hlen]; omega
  have ht : (payload ++ rest).take (sizeLen s) = payload := by
    rw [← hlen]; exact take_length_append payload rest
  have hd : (payload ++ rest).drop (sizeLen s) = rest := by
    rw [← hlen]; exact drop_length_append payload rest
  rw [decodeRDItem_cons (p.val * 4 + s) (payload ++ rest)]
  simp only [decodeHeader]
  rw [h1, h2, HIDTag.fromNat?_val]
  show (if sizeLen s ≤ (payload ++ rest).length then
      some ((⟨p, s, decodeData p s ((payload ++ rest).take (sizeLen s))⟩ : RDItem),
            (payload ++ rest).drop (sizeLen s))
    else none) = some ((⟨p, s, decodeData p s payload⟩ : RDItem), rest)
  rw [if_pos h3, ht, hd]

theorem encodeItemData_decodeData (p : HIDTag) (s : Nat) (payload : List Nat)
    (hs : s < 4) (hlen : payload.length = sizeLen s)
    (hbytes : ∀ b ∈ payload, b < 256) :
    encodeItemData (decodeData p s payload) = payload := by
  unfold decodeData
  by_cases hf : hasItemFlags p = true
  · rw [if_pos hf]
    interval_cases s
    · match payload, hlen with
      | [], _ => rfl
    · match payload, hlen with
      | [b], _ =>
        show [(itemFlags1OfByte b).toByte] = [b]
        rw [itemFlags1_toByte_ofByte b (hbytes b (by simp))]
    · match payload, hlen with
      | [b1, b2], _ =>
        show (itemFlags2OfBytes b1 b2).toBytes = [b1, b2]
        rw [itemFlags2_toBytes_ofBytes b1 b2
          (hbytes b1 (by simp)) (hbytes b2 (by simp))]
    · match payload, hlen with
      | [b1, b2, b3, b4], _ => rfl
  · rw [if_neg hf]
    rfl

theorem encodeRDItem_decoded (p : HIDTag) (s : Nat) (payload : List Nat)
    (hs : s < 4) (hlen : payload.length = sizeLen s)
    (hbytes : ∀ b ∈ payload, b < 256) :
    encodeRDItem ⟨p, s, decodeData p s payload⟩ = (p.val * 4 + s) :: payload := by
  unfold encodeRDItem encodeHeader
  rw [encodeItemData_decodeData p s payload hs hlen hbytes]

theorem decodeRDItem_rest_length (l : List Nat) (it : RDItem) (r : List Nat)
    (h : decodeRDItem l = some (it, r)) : r.length < l.length := by
  match l with
  | [] => simp [decodeRDItem] at h
  | x :: rest =>
    rw [decodeRDItem_cons] at h
    simp only [decodeHeader] at h
    match hp : HIDTag.fromNat? (x / 4 % 64) with
    | none => rw [hp] at h; exact absurd h (by simp)
    | some p =>
      rw [hp] at h
      have h' : (if sizeLen (x % 4) ≤ rest.length then
          some ((⟨p, x % 4, decodeData p (x % 4) (rest.take (sizeLen (x % 4)))⟩ : RDItem),
                rest.drop (sizeLen (x % 4)))
        else none) = some (it, r) := h
      by_cases hle : sizeLen (x % 4) ≤ rest.length
      · rw [if_pos hle] at h'
        have hr : r = rest.drop (sizeLen (x % 4)) := by
          cases h'; rfl
        rw [hr]
        simp only [List.length_drop, List.length_cons]
        omega
      · rw [if_neg hle] at h'
        exact absurd h' (by simp)

theorem decodeRDAux_nil (fuel : Nat) : decodeRDAux fuel [] = [] := by
  cases fuel <;> simp [decodeRDAux, decodeRDItem]

theorem decodeRDAux_succ_none (fuel : Nat) (l : List Nat)
    (h : decodeRDItem l = none) : decodeRDAux (fuel + 1) l = [] := by
  simp [decodeRDAux, h]

theorem decodeRDAux_succ_some (fuel : Nat) (l : List Nat) (it : RDItem)
    (r : List Nat) (h : decodeRDItem l = some (it, r)) :
    decodeRDAux (fuel + 1) l = it :: decodeRDAux fuel r := by
  simp [decodeRDAux, h]

theorem decodeRDAux_congr (f1 : Nat) :
    ∀ f2 l, l.length ≤ f1 → l.length ≤ f2 → decodeRDAux f1 l = decodeRDAux f2 l := by
  induction f1 with
  | zero =>
    intro f2 l h1 _
    have hl : l = [] := List.length_eq_zero.mp (Nat.le_zero.mp h1)
    subst hl
    rw [decodeRDAux_nil, decodeRDAux_nil]
  | succ g1 ih =>
    intro f2 l h1 h2
    match l with
    | [] => rw [decodeRDAux_nil, decodeRDAux_nil]
    | x :: rest =>
      match f2, h2 with
      | g2 + 1, h2 =>
        cases hit : decodeRDItem (x :: rest) with
        | none =>
          rw [decodeRDAux_succ_none _ _ hit, decodeRDAux_succ_none _ _ hit]
        | some itr =>
          obtain ⟨it, r⟩ := itr
          have hr := decodeRDItem_rest_length _ _ _ hit
          simp only [List.length_cons] at h1 h2 hr
          rw [decodeRDAux_succ_some _ _ _ _ hit, decodeRDAux_succ_some _ _ _ _ hit,
              ih g2 r (by omega) (by omega)]

theorem encodeReportDescriptor_cons (it : RDItem) (l : List RDItem) :
    encodeReportDescriptor (it :: l) = encodeRDItem it ++ encodeReportDescriptor l := by
  simp [encodeReportDescriptor]

theorem encode_decodeRDAux (b : List Nat) (hb : ValidRD b) :
    ∀ fuel, b.length ≤ fuel → encodeReportDescriptor (decodeRDAux fuel b) = b := by
  induction hb with
  | nil =>
    intro fuel _
    rw [decodeRDAux_nil]
    rfl
  | cons p s payload rest hs hlen hbytes hrest ih =>
    intro fuel hfuel
    cases fuel with
    | zero => simp at hfuel
    | succ f =>
      rw [decodeRDAux_succ_some f _ _ _ (decodeRDItem_encoded p s payload rest hs hlen),
          encodeReportDescriptor_cons,
          encodeRDItem_decoded p s payload hs hlen hbytes]
      have hlen2 : rest.length ≤ f := by
        simp only [List.length_cons, List.length_append] at hfuel
        omega
      rw [ih f hlen2]
      simp

theorem decodeRDAux_append_undecodable (b : List Nat) (hb : ValidRD b) :
    ∀ t fuel, decodeRDItem t = none → b.length ≤ fuel →
      decodeRDAux fuel (b ++ t) = decodeRDAux fuel b := by
  induction hb with
  | nil =>
    intro t fuel ht _
    rw [List.nil_append, decodeRDAux_nil]
    cases fuel with
    | zero => rfl
    | succ f => rw [decodeRDAux_succ_none f t ht]
  | cons p s payload rest hs hlen hbytes hrest ih =>
    intro t fuel ht hfuel
    cases fuel with
    | zero => simp at hfuel
    | succ f =>
      have hassoc : ((p.val * 4 + s) :: (payload ++ rest)) ++ t
          = (p.val * 4 + s) :: (payload ++ (rest ++ t)) := by simp
      rw [hassoc,
          decodeRDAux_succ_some f _ _ _
            (decodeRDItem_encoded p s payload (rest ++ t) hs hlen),
          decodeRDAux_succ_some f _ _ _
            (decodeRDItem_encoded p s payload rest hs hlen)]
      have hlen2 : rest.length ≤ f := by
        simp only [List.length_cons, List.length_append] at hfuel
        omega
      rw [ih t f ht hlen2]

/-! ## The claims -/

/-- C1: for every validly-encoded report descriptor buffer `b`, decoding `b`
into an item sequence and re-encoding that sequence reproduces `b` exactly. -/
theorem claim_C1_roundtrip (b : List Nat) (hb : ValidRD b) :
    encodeReportDescriptor (decodeReportDescriptor b) = b :=
  encode_decodeRDAux b hb b.length le_rfl

theorem claim_C1_witness :
    ValidRD [129, 2] ∧
      encodeReportDescriptor (decodeReportDescriptor [129, 2]) = [129, 2] := by
  have hv : ValidRD [129, 2] :=
    ValidRD.cons HIDTag.INPUT 1 [2] [] (by decide) (by decide) (by decide) ValidRD.nil
  exact ⟨hv, claim_C1_roundtrip [129, 2] hv⟩

/-- C3 counterexample: the claim says a buffer whose trailing item header
declares more payload bytes than remain makes decoding fail with no partial
item sequence; on `[0x95, 0x08, 0x81]` (a complete REPORT_COUNT item
followed by an INPUT header declaring one payload byte with none left) the
code instead returns the one complete item and silently drops the partial
trailing item. -/
theorem claim_C3_counterexample :
    decodeReportDescriptor [149, 8, 129] =
        [⟨HIDTag.REPORT_COUNT, 1, ItemData.raw [8]⟩] ∧
    sizeLen (129 % 4) = 1 ∧ decodeRDItem [129] = none := by
  decide

/-- C3 as amended: decoding never fails; `GreedyRange` stops at the first
item that cannot be decoded (for instance a truncated trailing item),
silently drops it and returns the items decoded before it. -/
theorem claim_C3_greedy (b t : List Nat) (hb : ValidRD b)
    (ht : decodeRDItem t = none) :
    decodeReportDescriptor (b ++ t) = decodeReportDescriptor b := by
  show decodeRDAux (b ++ t).length (b ++ t) = decodeRDAux b.length b
  rw [decodeRDAux_append_undecodable b hb t (b ++ t).length ht
    (by simp only [List.length_append]; omega)]
  exact decodeRDAux_congr (b ++ t).length b.length b
    (by simp only [List.length_append]; omega) le_rfl

theorem claim_C3_witness :
    ValidRD [149, 8] ∧ decodeRDItem [129] = none ∧
      decodeReportDescriptor ([149, 8] ++ [129]) = decodeReportDescriptor [149, 8] := by
  have hv : ValidRD [149, 8] :=
    ValidRD.cons HIDTag.REPORT_COUNT 1 [8] [] (by decide) (by decide) (by decide)
      ValidRD.nil
  exact ⟨hv, by decide, claim_C3_greedy [149, 8] [129] hv (by decide)⟩

theorem decodeData_flagged (p : HIDTag) (hp : hasItemFlags p = true) :
    (∀ b, decodeData p 1 [b] = ItemData.flags1 (itemFlags1OfByte b)) ∧
    (∀ b1 b2, decodeData p 2 [b1, b2] = ItemData.flags2 (itemFlags2OfBytes b1 b2)) ∧
    (∀ payload, decodeData p 0 payload = ItemData.raw payload) ∧
    (∀ payload, decodeData p 3 payload = ItemData.raw payload) := by
  unfold decodeData
  rw [hp]
  simp

/-- C2 counterexample: decoding the source's own test vector
`b'\x82\x01\x02'` (an INPUT header with size class 2, so two payload bytes)
yields a structured flag record where the claim requires plain integer
decoding, and at size class 3 (four payload bytes) decoding yields plain
bytes where the claim requires a flag record. -/
theorem claim_C2_counterexample :
    decodeRDItem [130, 1, 2] =
        some (⟨HIDTag.INPUT, 2, ItemData.flags2
          ⟨false, false, false, false, false, false, false, true,
           false, false, false, false, false, false, true, false⟩⟩, []) ∧
    decodeRDItem [131, 1, 2, 3, 4] =
        some (⟨HIDTag.INPUT, 3, ItemData.raw [1, 2, 3, 4]⟩, []) := by
  decide

/-- C2 as amended: for an item whose header tag is INPUT, OUTPUT or FEATURE,
the payload is decoded as a flag record exactly when the size class selects
a payload length of 1 or 2 bytes (the one-byte and the two-byte record
forms), and falls back to plain byte-sequence decoding exactly when the
size class selects 0 or 4 bytes. -/
theorem claim_C2_flag_dispatch (p : HIDTag) (hp : hasItemFlags p = true)
    (s : Nat) (hs : s < 4) (payload rest : List Nat)
    (hlen : payload.length = sizeLen s) :
    decodeRDItem ((p.val * 4 + s) :: (payload ++ rest)) =
        some (⟨p, s, decodeData p s payload⟩, rest) ∧
    ((∃ f, decodeData p s payload = ItemData.flags1 f) ↔ s = 1) ∧
    ((∃ f, decodeData p s payload = ItemData.flags2 f) ↔ s = 2) ∧
    (decodeData p s payload = ItemData.raw payload ↔ (s = 0 ∨ s = 3)) := by
  obtain ⟨hd1, hd2, hd0, hd3⟩ := decodeData_flagged p hp
  refine ⟨decodeRDItem_encoded p s payload rest hs hlen, ?_, ?_, ?_⟩ <;>
    interval_cases s <;>
    first
      | (rw [hd0]; simp)
      | (rw [hd3]; simp)
      | (obtain ⟨b, rfl⟩ := List.length_eq_one.mp
            (by simpa [sizeLen, hidItemLength] using hlen)
         rw [hd1 b]; simp)
      | (obtain ⟨b1, b2, rfl⟩ := List.length_eq_two.mp
            (by simpa [sizeLen, hidItemLength] using hlen)
         rw [hd2 b1 b2]; simp)

theorem claim_C2_witness :
    decodeRDItem ((HIDTag.val HIDTag.INPUT * 4 + 2) :: ([1, 2] ++ [])) =
        some (⟨HIDTag.INPUT, 2, decodeData HIDTag.INPUT 2 [1, 2]⟩, []) ∧
    ((∃ f, decodeData HIDTag.INPUT 2 [1, 2] = ItemData.flags1 f) ↔ (2 : Nat) = 1) ∧
    ((∃ f, decodeData HIDTag.INPUT 2 [1, 2] = ItemData.flags2 f) ↔ (2 : Nat) = 2) ∧
    (decodeData HIDTag.INPUT 2 [1, 2] = ItemData.raw [1, 2] ↔
        ((2 : Nat) = 0 ∨ (2 : Nat) = 3)) :=
  claim_C2_flag_dispatch HIDTag.INPUT (by decide) 2 (by decide) [1, 2] [] (by decide)

theorem testBit_high_byte (b1 b2 j : Nat) (h2 : b2 < 256) :
    (b1 * 256 + b2).testBit (8 + j) = b1.testBit j := by
  have hsh : (b1 * 256 + b2) >>> 8 = b1 := by
    rw [Nat.shiftRight_eq_div_pow]
    norm_num
    omega
  calc (b1 * 256 + b2).testBit (8 + j)
      = ((b1 * 256 + b2) >>> 8).testBit j := (Nat.testBit_shiftRight _).symm
    _ = b1.testBit j := by rw [hsh]

theorem testBit_low_byte (b1 b2 j : Nat) (hj : j < 8) (h2 : b2 < 256) :
    (b1 * 256 + b2).testBit j = b2.testBit j := by
  have hmod : (b1 * 256 + b2) % 2 ^ 8 = b2 := by norm_num; omega
  conv_rhs => rw [← hmod]
  rw [Nat.testBit_mod_two_pow]
  simp [hj]

/-- C5 counterexample: at size class 3 (the class selecting four payload
bytes) a flagged item's payload decodes to plain bytes, not to the extended
flag record the claim places there; and the extended record encodes to two
bytes, not four. -/
theorem claim_C5_counterexample :
    decodeRDItem [131, 1, 2, 3, 4] =
        some (⟨HIDTag.INPUT, 3, ItemData.raw [1, 2, 3, 4]⟩, []) ∧
    (encodeItemData (ItemData.flags2
      ⟨false, false, false, false, false, false, false, false,
       false, false, false, false, false, false, false, false⟩)).length = 2 := by
  decide

/-- C5 as amended: the extended flag record is a 2-byte (16-bit) field used
exactly when a flagged item's size class selects 2 payload bytes; reading
its two bytes as a big-endian 16-bit word, the same 8 flags occupy the low
byte in the same bit order as the 1-byte form, `bitfield_bufferedbytes`
sits immediately above them at bit 8, and the SEVEN reserved flags occupy
bits 9 to 15. -/
theorem claim_C5_extended_flags (p : HIDTag) (hp : hasItemFlags p = true)
    (b1 b2 : Nat) (rest : List Nat) (h1 : b1 < 256) (h2 : b2 < 256) :
    decodeRDItem ((p.val * 4 + 2) :: (b1 :: b2 :: rest)) =
        some (⟨p, 2, ItemData.flags2 (itemFlags2OfBytes b1 b2)⟩, rest) ∧
    sizeLen 2 = 2 ∧
    (itemFlags2OfBytes b1 b2).toBytes = [b1, b2] ∧
    (itemFlags2OfBytes b1 b2).data_constant = (b1 * 256 + b2).testBit 0 ∧
    (itemFlags2OfBytes b1 b2).array_variable = (b1 * 256 + b2).testBit 1 ∧
    (itemFlags2OfBytes b1 b2).absolute_relative = (b1 * 256 + b2).testBit 2 ∧
    (itemFlags2OfBytes b1 b2).wrap = (b1 * 256 + b2).testBit 3 ∧
    (itemFlags2OfBytes b1 b2).nLinear = (b1 * 256 + b2).testBit 4 ∧
    (itemFlags2OfBytes b1 b2).nPreferred = (b1 * 256 + b2).testBit 5 ∧
    (itemFlags2OfBytes b1 b2).null = (b1 * 256 + b2).testBit 6 ∧
    (itemFlags2OfBytes b1 b2).volatile = (b1 * 256 + b2).testBit 7 ∧
    (itemFlags2OfBytes b1 b2).bitfield_bufferedbytes = (b1 * 256 + b2).testBit 8 ∧
    (itemFlags2OfBytes b1 b2).reserved0 = (b1 * 256 + b2).testBit 9 ∧
    (itemFlags2OfBytes b1 b2).reserved1 = (b1 * 256 + b2).testBit 10 ∧
    (itemFlags2OfBytes b1 b2).reserved2 = (b1 * 256 + b2).testBit 11 ∧
    (itemFlags2OfBytes b1 b2).reserved3 = (b1 * 256 + b2).testBit 12 ∧
    (itemFlags2OfBytes b1 b2).reserved4 = (b1 * 256 + b2).testBit 13 ∧
    (itemFlags2OfBytes b1 b2).reserved5 = (b1 * 256 + b2).testBit 14 ∧
    (itemFlags2OfBytes b1 b2).reserved6 = (b1 * 256 + b2).testBit 15 ∧
    (itemFlags2OfBytes b1 b2).volatile = (itemFlags1OfByte b2).volatile ∧
    (itemFlags2OfBytes b1 b2).null = (itemFlags1OfByte b2).null ∧
    (itemFlags2OfBytes b1 b2).nPreferred = (itemFlags1OfByte b2).nPreferred ∧
    (itemFlags2OfBytes b1 b2).nLinear = (itemFlags1OfByte b2).nLinear ∧
    (itemFlags2OfBytes b1 b2).wrap = (itemFlags1OfByte b2).wrap ∧
    (itemFlags2OfBytes b1 b2).absolute_relative =
        (itemFlags1OfByte b2).absolute_relative ∧
    (itemFlags2OfBytes b1 b2).array_variable = (itemFlags1OfByte b2).array_variable ∧
    (itemFlags2OfBytes b1 b2).data_constant = (itemFlags1OfByte b2).data_constant := by
  have hk : ∀ j, j < 8 → (b1 * 256 + b2).testBit j = b2.testBit j :=
    fun j hj => testBit_low_byte b1 b2 j hj h2
  have hdec := decodeRDItem_encoded p 2 [b1, b2] rest (by omega) rfl
  rw [(decodeData_flagged p hp).2.1 b1 b2] at hdec
  exact ⟨hdec, rfl, itemFlags2_toBytes_ofBytes b1 b2 h1 h2,
    (hk 0 (by omega)).symm, (hk 1 (by omega)).symm, (hk 2 (by omega)).symm,
    (hk 3 (by omega)).symm, (hk 4 (by omega)).symm, (hk 5 (by omega)).symm,
    (hk 6 (by omega)).symm, (hk 7 (by omega)).symm,
    (testBit_high_byte b1 b2 0 h2).symm, (testBit_high_byte b1 b2 1 h2).symm,
    (testBit_high_byte b1 b2 2 h2).symm, (testBit_high_byte b1 b2 3 h2).symm,
    (testBit_high_byte b1 b2 4 h2).symm, (testBit_high_byte b1 b2 5 h2).symm,
    (testBit_high_byte b1 b2 6 h2).symm, (testBit_high_byte b1 b2 7 h2).symm,
    rfl, rfl, rfl, rfl, rfl, rfl, rfl, rfl⟩

theorem claim_C5_witness :
    decodeRDItem ((HIDTag.val HIDTag.INPUT * 4 + 2) :: (1 :: 2 :: [])) =
        some (⟨HIDTag.INPUT, 2, ItemData.flags2 (itemFlags2OfBytes 1 2)⟩, []) ∧
    (itemFlags2OfBytes 1 2).toBytes = [1, 2] ∧
    (itemFlags2OfBytes 1 2).bitfield_bufferedbytes = (1 * 256 + 2).testBit 8 := by
  have h := claim_C5_extended_flags HIDTag.INPUT (by decide) 1 2 [] (by decide) (by decide)
  obtain ⟨ha, hsz, hc, q0, q1, q2, q3, q4, q5, q6, q7, hbb, -⟩ := h
  exact ⟨ha, hc, hbb⟩

/-- C6 counterexample: byte `0x02` — the most-significant-to-least ordering
the claim states would make bit 1 the `null` flag, but the source's layout
(confirmed by its own test on `b'\x81\x02'`) makes bit 1 `array_variable`. -/
theorem claim_C6_counterexample :
    specClaimFlags1OfByte 2 ≠ itemFlags1OfByte 2 ∧
    (itemFlags1OfByte 2).array_variable = true ∧
    (itemFlags1OfByte 2).null = false ∧
    (specClaimFlags1OfByte 2).array_variable = false ∧
    (specClaimFlags1OfByte 2).null = true := by
  decide

/-- C6 as amended: in the 1-byte flag record the 8 flags occupy the byte
ordered from LEAST-significant to most-significant bit as `data_constant,
array_variable, absolute_relative, wrap, nLinear, nPreferred, null,
volatile` (the reverse of the claimed order), and re-encoding the record
reproduces the byte. -/
theorem claim_C6_bit_order :
    ∀ b < 256,
      (itemFlags1OfByte b).data_constant = b.testBit 0 ∧
      (itemFlags1OfByte b).array_variable = b.testBit 1 ∧
      (itemFlags1OfByte b).absolute_relative = b.testBit 2 ∧
      (itemFlags1OfByte b).wrap = b.testBit 3 ∧
      (itemFlags1OfByte b).nLinear = b.testBit 4 ∧
      (itemFlags1OfByte b).nPreferred = b.testBit 5 ∧
      (itemFlags1OfByte b).null = b.testBit 6 ∧
      (itemFlags1OfByte b).volatile = b.testBit 7 ∧
      (itemFlags1OfByte b).toByte = b := by
  intro b hb
  exact ⟨rfl, rfl, rfl, rfl, rfl, rfl, rfl, rfl, itemFlags1_toByte_ofByte b hb⟩

theorem claim_C6_witness :
    (itemFlags1OfByte 2).data_constant = Nat.testBit 2 0 ∧
    (itemFlags1OfByte 2).array_variable = Nat.testBit 2 1 ∧
    (itemFlags1OfByte 2).absolute_relative = Nat.testBit 2 2 ∧
    (itemFlags1OfByte 2).wrap = Nat.testBit 2 3 ∧
    (itemFlags1OfByte 2).nLinear = Nat.testBit 2 4 ∧
    (itemFlags1OfByte 2).nPreferred = Nat.testBit 2 5 ∧
    (itemFlags1OfByte 2).null = Nat.testBit 2 6 ∧
    (itemFlags1OfByte 2).volatile = Nat.testBit 2 7 ∧
    (itemFlags1OfByte 2).toByte = 2 :=
  claim_C6_bit_order 2 (by decide)

/-- C7: for every tag `p` in the closed set and every size class
`s ∈ {0,1,2,3}`, `decode_header(encode_header(p, s)) = (p, s)`, the encoded
header being a single byte with `p` in the top six bits and `s` in the
bottom two. -/
theorem claim_C7_header_roundtrip (p : HIDTag) (s : Nat) (hs : s < 4) :
    decodeHeader (encodeHeader p s) = (some p, s) ∧
    encodeHeader p s / 4 = p.val ∧ encodeHeader p s % 4 = s ∧
    encodeHeader p s < 256 := by
  have hv := HIDTag.val_lt p
  refine ⟨?_, by unfold encodeHeader; omega, by unfold encodeHeader; omega,
    by unfold encodeHeader; omega⟩
  unfold decodeHeader encodeHeader
  have hd1 : (p.val * 4 + s) / 4 % 64 = p.val := by omega
  have hd2 : (p.val * 4 + s) % 4 = s := by omega
  rw [hd1, hd2, HIDTag.fromNat?_val]

theorem claim_C7_witness :
    decodeHeader (encodeHeader HIDTag.INPUT 1) = (some HIDTag.INPUT, 1) ∧
    encodeHeader HIDTag.INPUT 1 / 4 = HIDTag.val HIDTag.INPUT ∧
    encodeHeader HIDTag.INPUT 1 % 4 = 1 ∧ encodeHeader HIDTag.INPUT 1 < 256 :=
  claim_C7_header_roundtrip HIDTag.INPUT 1 (by decide)

/-- C8: a header byte whose top six bits are not a member of the closed tag
set makes the item fail to decode — no item carrying a raw integer tag is
ever produced, at the item level or the stream level. -/
theorem claim_C8_unknown_tag (h : Nat) (rest : List Nat)
    (hu : HIDTag.fromNat? (h / 4 % 64) = none) :
    decodeRDItem (h :: rest) = none ∧ decodeReportDescriptor (h :: rest) = [] := by
  have hitem : decodeRDItem (h :: rest) = none := by
    rw [decodeRDItem_cons h rest]
    simp only [decodeHeader]
    rw [hu]
  refine ⟨hitem, ?_⟩
  show decodeRDAux (h :: rest).length (h :: rest) = []
  rw [List.length_cons]
  exact decodeRDAux_succ_none _ _ hitem

theorem claim_C8_witness :
    HIDTag.fromNat? (0 / 4 % 64) = none ∧ decodeRDItem [0] = none ∧
      decodeReportDescriptor [0] = [] := by
  have h := claim_C8_unknown_tag 0 [] (by decide)
  exact ⟨by decide, h.1, h.2⟩

/-- C4: one `emit()` call sets `wDescriptorLength` to the total byte length
of all appended contributions' encodings and registers exactly one entry,
of descriptor type 0x22 (= 34), holding exactly those bytes concatenated in
append order. -/
theorem claim_C4_emit (reports : List Report) (c : DescriptorTable) :
    (hidDescriptorEmit reports c).1.wDescriptorLength =
        (reports.map fun r => (Report.emit r).length).sum ∧
    (hidDescriptorEmit reports c).2.entries =
        c.entries ++ [((reports.map Report.emit).flatten, 34)] := by
  constructor
  · show ((reports.map Report.emit).flatten).length = _
    rw [List.length_flatten, List.map_map]
    rfl
  · rfl

theorem add_inpout_item_eq_of_not_buffered (p : HIDTag) (a : InpoutArgs)
    (hbb : a.bitfield_bufferedbytes = false) :
    add_inpout_item p a =
        some ⟨p, 1, [RArg.blob [bitsToNat
          [a.volatile, a.null, !a.preferred, !a.linear,
           a.wrap, a.absolute_relative, a.array_variable, a.data_constant]]]⟩ := by
  unfold add_inpout_item
  rw [hbb]
  rfl

theorem add_inpout_item_none_of_buffered (p : HIDTag) (a : InpoutArgs)
    (hbb : a.bitfield_bufferedbytes = true) :
    add_inpout_item p a = none := by
  unfold add_inpout_item
  rw [hbb]
  rfl

/-- C9 counterexample: the claim says the `linear` parameter defaults to
true (so the all-defaults flag byte would encode the `nLinear` bit as 0,
producing 0x02); in the source `linear` defaults to FALSE, so the
all-defaults build produces 0x12, whose `nLinear` bit (bit 4) is set. -/
theorem claim_C9_counterexample :
    ({} : InpoutArgs).linear = false ∧
    add_inpout_item HIDTag.INPUT {} =
        some ⟨HIDTag.INPUT, 1, [RArg.blob [18]]⟩ ∧
    Nat.testBit 18 4 = true ∧ (18 : Nat) ≠ 2 := by
  decide

/-- C9 as amended: when the one-byte flag record is built
(`bitfield_bufferedbytes = false`), flag parameters left unset default to
false except that `array_variable` and `preferred` default to true while
`linear` defaults to FALSE; `linear` and `preferred` are encoded in
negated sense (`nLinear` bit = not linear, `nPreferred` bit = not
preferred), so the all-defaults byte has the `nLinear` bit set. -/
theorem claim_C9_flag_defaults (p : HIDTag) (a : InpoutArgs)
    (hbb : a.bitfield_bufferedbytes = false) :
    add_inpout_item p a =
        some ⟨p, 1, [RArg.blob [bitsToNat
          [a.volatile, a.null, !a.preferred, !a.linear,
           a.wrap, a.absolute_relative, a.array_variable, a.data_constant]]]⟩ ∧
    ({} : InpoutArgs) =
        ⟨false, true, false, false, false, true, false, false, false⟩ :=
  ⟨add_inpout_item_eq_of_not_buffered p a hbb, rfl⟩

theorem claim_C9_witness :
    add_inpout_item HIDTag.INPUT {} =
        some ⟨HIDTag.INPUT, 1, [RArg.blob [bitsToNat
          [false, false, !true, !false, false, false, true, false]]]⟩ ∧
    ({} : InpoutArgs) =
        ⟨false, true, false, false, false, true, false, false, false⟩ :=
  claim_C9_flag_defaults HIDTag.INPUT {} rfl

/-- C10 counterexample: with `bitfield_bufferedbytes = true` the claim says
an item is appended carrying a two-byte flag payload under a header
declaring one byte; in the source that call instead fails — the 16-field
`ItemFlags2` record is built from a mapping lacking its 8 reserved and
buffered-bytes fields, a build error — so no item is appended at all. -/
theorem claim_C10_counterexample :
    add_inpout_item HIDTag.INPUT
        ⟨false, true, false, false, false, true, false, false, true⟩ = none ∧
    (itemFlags2Names.filter fun k =>
        ((inpoutFlagsDict
          ⟨false, true, false, false, false, true, false, false, true⟩).lookup
            k).isNone).length = 8 := by
  decide

/-- C10 as amended: `add_report_item` derives the header size class from
the NUMBER of payload arguments; `add_inpout_item` passes one argument, so
any item it appends has size class 1, and with `bitfield_bufferedbytes =
false` that item carries a one-byte flag payload (consistent with its
header); with `bitfield_bufferedbytes = true` building the extended record
fails and no item is appended. -/
theorem claim_C10_arg_count (p : HIDTag) (a : InpoutArgs) :
    (∀ args e, add_report_item p args = some e →
        e.data = args ∧ listIndex? hidItemLength args.length = some e.bSize) ∧
    (a.bitfield_bufferedbytes = false →
        ∃ bs, bs.length = 1 ∧
          add_inpout_item p a = some ⟨p, 1, [RArg.blob bs]⟩) ∧
    (a.bitfield_bufferedbytes = true → add_inpout_item p a = none) := by
  refine ⟨?_, ?_, add_inpout_item_none_of_buffered p a⟩
  · intro args e he
    unfold add_report_item at he
    cases hidx : listIndex? hidItemLength args.length with
    | none => rw [hidx] at he; exact absurd he (by simp)
    | some sz =>
      rw [hidx] at he
      have he' : some (⟨p, sz, args⟩ : ReportItemEmitter) = some e := he
      cases he'
      exact ⟨rfl, rfl⟩
  · intro hbb
    exact ⟨[bitsToNat
        [a.volatile, a.null, !a.preferred, !a.linear,
         a.wrap, a.absolute_relative, a.array_variable, a.data_constant]],
      rfl, add_inpout_item_eq_of_not_buffered p a hbb⟩

theorem claim_C10_witness :
    ((⟨HIDTag.INPUT, 1, [RArg.blob [18]]⟩ : ReportItemEmitter).data =
        [RArg.blob [18]] ∧
      listIndex? hidItemLength 1 = some 1) ∧
    add_inpout_item HIDTag.INPUT
        ⟨false, true, false, false, false, true, false, false, true⟩ = none := by
  have h := claim_C10_arg_count HIDTag.INPUT
      ⟨false, true, false, false, false, true, false, false, true⟩
  refine ⟨?_, h.2.2 rfl⟩
  exact h.1 [RArg.blob [18]] ⟨HIDTag.INPUT, 1, [RArg.blob [18]]⟩ rfl

end USBHid
